import Mathlib

/-!
# bililive-go, `src/api/live.go`

A shallow embedding of the platform-abstraction layer: the two platform-name
registries, the `Info` snapshot with its JSON serialization, and the room
factory `NewLive` with its bounded verification loop.

Go `string` values are Lean `String`s, a Go `map[string]string` literal is the
association list of its entries in source order, and a Go `(T, error)` result
is a pair whose components are `Option`s (`none` is Go's `nil`).
-/

namespace Api

/-! ## Identifier and registries -/

/-- Go: `type LiveId string`. -/
abbrev LiveId := String

/-- Go: `var LivePlatformCNNameMap = map[string]string{...}` (live.go 15-28). -/
def LivePlatformCNNameMap : List (String × String) :=
  [ ("www.panda.tv", "熊猫"),
    ("live.bilibili.com", "哔哩哔哩"),
    ("www.zhanqi.tv", "战旗"),
    ("www.douyu.com", "斗鱼"),
    ("star.longzhu.com", "龙珠"),
    ("www.huomao.com", "火猫"),
    ("www.yizhibo.com", "一直播"),
    ("www.twitch.tv", "twitch"),
    ("www.huya.com", "虎牙"),
    ("www.quanmin.tv", "全民"),
    ("cc.163.com", "CC直播"),
    ("www.openrec.tv", "openrec") ]

/-- Go: `var LivePlatformENNameMap = map[string]string{...}` (live.go 30-43). -/
def LivePlatformENNameMap : List (String × String) :=
  [ ("www.panda.tv", "panda"),
    ("live.bilibili.com", "bilibili"),
    ("www.zhanqi.tv", "zhanqi"),
    ("www.douyu.com", "douyu"),
    ("star.longzhu.com", "longzhu"),
    ("www.huomao.com", "huomao"),
    ("www.yizhibo.com", "yizhibo"),
    ("www.twitch.tv", "twitch"),
    ("www.huya.com", "huya"),
    ("www.quanmin.tv", "quanmin"),
    ("cc.163.com", "163CC"),
    ("www.openrec.tv", "openrec") ]

/-- The key set of a map literal, in source order. -/
def keys (m : List (String × String)) : List String := m.map Prod.fst

/-- Go map indexing `m[k]`, with `none` for an absent key. -/
def mapGet (m : List (String × String)) (k : String) : Option String :=
  m.lookup k

/-- The twelve implementation types named in the dispatch switch of `NewLive`. -/
inductive Platform where
  | PandaLive | BiliBiliLive | ZhanQiLive | DouyuLive | LongzhuLive | HuoMaoLive
  | YiZhiBoLive | TwitchLive | HuYaLive | QuanMinLive | CCLive | OpenRecLive
  deriving DecidableEq, Repr

/-- The part of Go's `url.URL` that can differ between two room URLs. -/
structure URL where
  Scheme : String
  Host : String
  Path : String
  RawQuery : String
  Fragment : String
  deriving DecidableEq, Repr

/-- Go: `switch url.Host { case "www.panda.tv": ... default: live = nil }`
(live.go 104-131): the implementation type selected for a host, if any. -/
def selectPlatform (host : String) : Option Platform :=
  if host = "www.panda.tv" then some .PandaLive
  else if host = "live.bilibili.com" then some .BiliBiliLive
  else if host = "www.zhanqi.tv" then some .ZhanQiLive
  else if host = "www.douyu.com" then some .DouyuLive
  else if host = "star.longzhu.com" then some .LongzhuLive
  else if host = "www.huomao.com" then some .HuoMaoLive
  else if host = "www.yizhibo.com" then some .YiZhiBoLive
  else if host = "www.twitch.tv" then some .TwitchLive
  else if host = "www.huya.com" then some .HuYaLive
  else if host = "www.quanmin.tv" then some .QuanMinLive
  else if host = "cc.163.com" then some .CCLive
  else if host = "www.openrec.tv" then some .OpenRecLive
  else none

/-- The hostnames of the `case` labels of the dispatch switch, in source order. -/
def dispatchHosts : List String :=
  [ "www.panda.tv", "live.bilibili.com", "www.zhanqi.tv", "www.douyu.com",
    "star.longzhu.com", "www.huomao.com", "www.yizhibo.com", "www.twitch.tv",
    "www.huya.com", "www.quanmin.tv", "cc.163.com", "www.openrec.tv" ]

/-! ## Time

The part of Go's standard `time.Time` that `MarshalJSON` uses: `IsZero`, `Unix`
and `Format` with the layout `2006-01-02 15:04:05`.
-/

/-- A Go `time.Time`: `sec` is `t.sec()`, the seconds since January 1, year 1
00:00:00 UTC; `nsec` is `t.nsec()`; `offset` is the offset east of UTC, in
seconds, that the value's location gives at this instant. -/
structure Time where
  sec : Int
  nsec : Nat
  offset : Int
  deriving DecidableEq, Repr

/-- Conversion of an integer to Go's `int64` (two's complement wrap-around). -/
def wrapInt64 (x : Int) : Int := (x + 2 ^ 63) % 2 ^ 64 - 2 ^ 63

/-- Go: `unixToInternal int64 = (1969*365 + 1969/4 - 1969/100 + 1969/400) * secondsPerDay`. -/
def unixToInternal : Int := (1969 * 365 + 1969 / 4 - 1969 / 100 + 1969 / 400) * 86400

/-- Go: `internalToUnix int64 = -unixToInternal`. -/
def internalToUnix : Int := -unixToInternal

/-- Go: `absoluteZeroYear = -292277022399`. -/
def absoluteZeroYear : Int := -292277022399

/-- Go: `internalToAbsolute = -absoluteToInternal`, with
`absoluteToInternal = (absoluteZeroYear - internalYear) * 365.2425 * secondsPerDay`. -/
def internalToAbsolute : Int := -((absoluteZeroYear - 1) * 31556952)

/-- Go: `func (t Time) IsZero() bool { return t.sec() == 0 && t.nsec() == 0 }`. -/
def Time.IsZero (t : Time) : Bool := t.sec == 0 && t.nsec == 0

/-- Go: `func (t Time) Unix() int64 { return t.unixSec() }`, where
`unixSec` is `t.sec() + internalToUnix`. -/
def Time.Unix (t : Time) : Int := wrapInt64 (t.sec + internalToUnix)

/-- Go: `func (t Time) abs() uint64`: the zone offset is added to `unixSec`
and the sum shifted to the absolute epoch is converted to `uint64`. -/
def Time.abs (t : Time) : Nat :=
  ((t.Unix + t.offset + (unixToInternal + internalToAbsolute)) % 2 ^ 64).toNat

/-- Go: `func isLeap(year int) bool`. -/
def isLeap (year : Int) : Bool :=
  year % 4 == 0 && (year % 100 != 0 || year % 400 == 0)

/-- Go: `var daysBefore = [...]int32{...}`, the days before each month in a
non-leap year. -/
def daysBefore : List Nat := [0, 31, 59, 90, 120, 151, 181, 212, 243, 273, 304, 334, 365]

/-- Go: `func absDate(abs uint64, full bool)` with `full = true`: the year,
month (January is 1) and day of the month of an absolute time. -/
def absDate (abs : Nat) : Int × Nat × Nat :=
  let d := abs / 86400
  let n := d / 146097
  let y := 400 * n
  let d := d - 146097 * n
  let n := d / 36524
  let n := n - n / 4
  let y := y + 100 * n
  let d := d - 36524 * n
  let n := d / 1461
  let y := y + 4 * n
  let d := d - 1461 * n
  let n := d / 365
  let n := n - n / 4
  let y := y + n
  let d := d - 365 * n
  let year : Int := (y : Int) + absoluteZeroYear
  if isLeap year && d == 31 + 29 - 1 then (year, 2, 29)
  else
    let day := if isLeap year && d > 31 + 29 - 1 then d - 1 else d
    let month := day / 31
    let stop := daysBefore.getD (month + 1) 0
    if day ≥ stop then (year, month + 2, day - stop + 1)
    else (year, month + 1, day - daysBefore.getD month 0 + 1)

/-- Go: `func absClock(abs uint64) (hour, min, sec int)`. -/
def absClock (abs : Nat) : Nat × Nat × Nat :=
  let sec := abs % 86400
  let hour := sec / 3600
  let sec := sec - hour * 3600
  let min := sec / 60
  let sec := sec - min * 60
  (hour, min, sec)

/-- Go: `func appendInt(b []byte, x int, width int) []byte`, the characters
appended: a minus sign for a negative `x`, then the decimal digits of its
magnitude padded with zeros on the left to `width`. -/
def appendInt (x : Int) (width : Nat) : List Char :=
  let digits := Nat.toDigits 10 x.natAbs
  (if x < 0 then ['-'] else []) ++ List.replicate (width - digits.length) '0' ++ digits

/-- Go: `t.Format("2006-01-02 15:04:05")`: the long year, the zero-padded
month and day, a blank, and the zero-padded hour, minute and second, in the
value's own location. -/
def Time.Format (t : Time) : String :=
  let date := absDate t.abs
  let clock := absClock t.abs
  String.mk (appendInt date.1 4 ++ ['-'] ++ appendInt date.2.1 2 ++ ['-'] ++
    appendInt date.2.2 2 ++ [' '] ++ appendInt clock.1 2 ++ [':'] ++
    appendInt clock.2.1 2 ++ [':'] ++ appendInt clock.2.2 2)

/-! ## The snapshot and its serialization -/

/-- The methods of the Go interface `Live` that `Info.MarshalJSON` calls. The
implementing types are not part of the file; each getter is a read of the
value it returns. -/
structure Live where
  GetLiveId : LiveId
  GetRawUrl : String
  GetRoomNickName : String
  GetPlatformCNName : String
  GetPlatformENName : String
  GetLastStartTime : Time
  deriving DecidableEq, Repr

/-- Go: `type Info struct` (live.go 45-49). -/
structure Info where
  Live : Live
  HostName : String
  RoomName : String
  Status : Bool
  Listening : Bool
  Recoding : Bool
  deriving DecidableEq, Repr

/-- A JSON value of one of the three kinds the serialized struct has. -/
inductive JSONValue where
  | str (s : String)
  | bool (b : Bool)
  | int (n : Int)
  deriving DecidableEq, Repr

/-- Go: the anonymous struct `t` of `MarshalJSON` (live.go 52-65). -/
structure InfoJSON where
  Id : LiveId
  LiveUrl : String
  PlatformCNName : String
  PlatformENName : String
  RoomNickName : String
  HostName : String
  RoomName : String
  Status : Bool
  Listening : Bool
  Recoding : Bool
  LastStartTime : String
  LastStartTimeUnix : Int
  deriving DecidableEq, Repr

/-- Go `encoding/json`: `isEmptyValue`, the values an `omitempty` field is
left out for: the empty string, `false` and `0`. -/
def isEmptyValue : JSONValue → Bool
  | .str s => s == ""
  | .bool b => !b
  | .int n => n == 0

/-- One struct field as encoded by `json.Marshal`: the member `key: v`, or
nothing when the tag has `omitempty` and the value is empty. -/
def field (key : String) (omitempty : Bool) (v : JSONValue) : List (String × JSONValue) :=
  if omitempty && isEmptyValue v then [] else [(key, v)]

/-- Go: `json.Marshal(t)` for the struct `t` with its field tags: the members
of the encoded object, in field order. For this struct type the encoder
returns a nil error. -/
def jsonMarshal (t : InfoJSON) : List (String × JSONValue) :=
  field "id" false (.str t.Id) ++
  field "live_url" false (.str t.LiveUrl) ++
  field "platform_cn_name" false (.str t.PlatformCNName) ++
  field "platform_en_name" false (.str t.PlatformENName) ++
  field "room_nickname" false (.str t.RoomNickName) ++
  field "host_name" false (.str t.HostName) ++
  field "room_name" false (.str t.RoomName) ++
  field "status" false (.bool t.Status) ++
  field "listening" false (.bool t.Listening) ++
  field "recoding" false (.bool t.Recoding) ++
  field "last_start_time" true (.str t.LastStartTime) ++
  field "last_start_time_unix" true (.int t.LastStartTimeUnix)

/-- Go: `func (i *Info) MarshalJSON() ([]byte, error)` (live.go 51-82). -/
def Info.MarshalJSON (i : Info) : List (String × JSONValue) :=
  let t : InfoJSON :=
    { Id := i.Live.GetLiveId
      LiveUrl := i.Live.GetRawUrl
      PlatformCNName := i.Live.GetPlatformCNName
      PlatformENName := i.Live.GetPlatformENName
      RoomNickName := i.Live.GetRoomNickName
      HostName := i.HostName
      RoomName := i.RoomName
      Status := i.Status
      Listening := i.Listening
      Recoding := i.Recoding
      LastStartTime := ""
      LastStartTimeUnix := 0 }
  let t : InfoJSON :=
    if !i.Live.GetLastStartTime.IsZero then
      { t with
        LastStartTime := i.Live.GetLastStartTime.Format
        LastStartTimeUnix := i.Live.GetLastStartTime.Unix }
    else t
  jsonMarshal t

/-- The keys of an encoded object, in order. -/
def objectKeys (o : List (String × JSONValue)) : List String := o.map Prod.fst

/-! ## The room factory -/

/-- Go: `type abstractLive struct`, the base record every implementation
embeds; `NewLive` fills its fields `Url` and `liveId`. -/
structure abstractLive where
  Url : URL
  liveId : LiveId
  deriving DecidableEq, Repr

/-- The value `&XxxLive{abstractLive: baseLive}` that one `case` of the
dispatch switch constructs: the implementation type and the embedded base. -/
structure LiveImpl where
  platform : Platform
  abstractLive : abstractLive
  deriving DecidableEq, Repr

/-- The Go `error` values `NewLive` can return: an error that `GetInfo`
returned, handed on as it is, or a fresh `errors.New(msg)`. -/
inductive Error (ε : Type) where
  | fromGetInfo (err : ε)
  | errorsNew (msg : String)
  deriving DecidableEq, Repr

/-- The observable actions of `NewLive`: a call of `live.GetInfo()` and a
call of `time.Sleep(d)`, with `d` in nanoseconds. -/
inductive Event where
  | GetInfo
  | Sleep (d : Nat)
  deriving DecidableEq, Repr

/-- Go: `time.Second`, in nanoseconds. -/
def Second : Nat := 1000000000

/-- Go: `fmt.Sprintf("%s%s", url.Host, url.Path)`. -/
def Sprintf (host path : String) : String := host ++ path

/-- Go: the composite literal `abstractLive{Url: url, liveId: LiveId(
utils.GetMd5String([]byte(fmt.Sprintf("%s%s", url.Host, url.Path))))}`
(live.go 99-102). `GetMd5String` is the hashing helper of the `utils` package. -/
def baseLive (GetMd5String : ByteArray → String) (url : URL) : abstractLive :=
  { Url := url, liveId := GetMd5String (Sprintf url.Host url.Path).toUTF8 }

/-- Go: the loop `for i := 0; i < 3; i++ { ... }` of `NewLive` (live.go 133-142),
entered at counter `i` with `remaining` iterations left. `GetInfo i` is the
error returned by the call `live.GetInfo()` of iteration `i` (`none` for a nil
error). The result is the value returned from inside the loop, or `none` when
the loop runs out, together with the actions performed. -/
def verifyLoop {ε : Type} (IsRoomNotExistsError : ε → Bool) (GetInfo : Nat → Option ε)
    (live : LiveImpl) :
    Nat → Nat → Option (Option LiveImpl × Option (Error ε)) × List Event
  | 0, _ => (none, [])
  | remaining + 1, i =>
    match GetInfo i with
    | some err =>
      if IsRoomNotExistsError err then
        (some (none, some (.fromGetInfo err)), [.GetInfo])
      else
        let rest := verifyLoop IsRoomNotExistsError GetInfo live remaining (i + 1)
        (rest.1, .GetInfo :: .Sleep (1 * Second) :: rest.2)
    | none => (some (some live, none), [.GetInfo])

/-- Go: `func NewLive(url *url.URL) (Live, error)` (live.go 98-145). The
result pairs the returned `(Live, error)` with the actions performed.
`GetMd5String` and `IsRoomNotExistsError` are the helpers the function calls,
and `GetInfo` gives the outcome of each call of the implementation's method. -/
def NewLive {ε : Type} (GetMd5String : ByteArray → String) (IsRoomNotExistsError : ε → Bool)
    (GetInfo : Nat → Option ε) (url : URL) :
    (Option LiveImpl × Option (Error ε)) × List Event :=
  let base := baseLive GetMd5String url
  let live : Option LiveImpl :=
    (selectPlatform url.Host).map fun p => { platform := p, abstractLive := base }
  match live with
  | some l =>
    match verifyLoop IsRoomNotExistsError GetInfo l 3 0 with
    | (some r, actions) => (r, actions)
    | (none, actions) => ((none, some (.errorsNew "can not parse")), actions)
  | none => ((none, some (.errorsNew "can not parse")), [])

/-- The actions of `k` failed attempts that were each followed by the
one-second sleep. -/
def failedAttempts : Nat → List Event
  | 0 => []
  | k + 1 => .GetInfo :: .Sleep (1 * Second) :: failedAttempts k

/-- The number of `GetInfo` calls among the actions. -/
def attempts (actions : List Event) : Nat := actions.count .GetInfo

/-- The durations of the sleeps among the actions, in order. -/
def sleeps : List Event → List Nat
  | [] => []
  | .Sleep d :: rest => d :: sleeps rest
  | .GetInfo :: rest => sleeps rest

/-! ## Sample inputs -/

/-- A stand-in for the hashing helper on the sample inputs: the length of the
hashed bytes, in decimal. -/
def sampleDigest (b : ByteArray) : String := toString b.size

/-- A classifier on errors given by their message: the room-not-exists error
is the one with the message `room not exists`. -/
def sampleIsRoomNotExistsError (err : String) : Bool := err == "room not exists"

/-- The room `https://www.panda.tv/10300`. -/
def pandaUrl : URL :=
  { Scheme := "https", Host := "www.panda.tv", Path := "/10300", RawQuery := "", Fragment := "" }

/-- The room `http://www.panda.tv/10300?from=home#chat`, with the host and
path of `pandaUrl`. -/
def pandaUrlWithQuery : URL :=
  { Scheme := "http", Host := "www.panda.tv", Path := "/10300", RawQuery := "from=home",
    Fragment := "chat" }

/-- A URL with a host outside the dispatch switch. -/
def exampleUrl : URL :=
  { Scheme := "https", Host := "example.com", Path := "/1", RawQuery := "", Fragment := "" }

/-- An implementation whose `GetInfo` always fails with a timeout. -/
def alwaysTimeout : Nat → Option String := fun _ => some "timeout"

/-- An implementation whose `GetInfo` fails with a timeout on the first call
and succeeds afterwards. -/
def timeoutThenSuccess : Nat → Option String := fun i => if i = 0 then some "timeout" else none

/-- An implementation whose `GetInfo` fails with a timeout on the first call
and reports afterwards that the room does not exist. -/
def timeoutThenMissing : Nat → Option String :=
  fun i => if i = 0 then some "timeout" else some "room not exists"

/-- The Unix epoch, 1970-01-01 00:00:00 UTC, as a `time.Time` in UTC. -/
def unixEpoch : Time := { sec := 62135596800, nsec := 0, offset := 0 }

/-- The instant 2019-03-01 07:59:59 at UTC+8, Unix time 1551398399. -/
def march2019 : Time := { sec := 62135596800 + 1551398399, nsec := 0, offset := 28800 }

/-- The zero `time.Time`. -/
def zeroTime : Time := { sec := 0, nsec := 0, offset := 0 }

/-- A `Live` of the room `pandaUrl` with the given last-start time. -/
def sampleLive (t : Time) : Live :=
  { GetLiveId := "0f3c5d1e", GetRawUrl := "https://www.panda.tv/10300",
    GetRoomNickName := "", GetPlatformCNName := "熊猫", GetPlatformENName := "panda",
    GetLastStartTime := t }

/-- A snapshot of `sampleLive t`. -/
def sampleInfo (t : Time) : Info :=
  { Live := sampleLive t, HostName := "host", RoomName := "room", Status := true,
    Listening := true, Recoding := false }

end Api

namespace Api

/-! ## Registries and dispatch -/

theorem selectPlatform_of_not_mem {h : String} (hh : h ∉ dispatchHosts) :
    selectPlatform h = none := by
  simp only [dispatchHosts, List.mem_cons, List.mem_singleton, List.not_mem_nil, or_false,
    not_or] at hh
  obtain ⟨h1, h2, h3, h4, h5, h6, h7, h8, h9, h10, h11, h12⟩ := hh
  unfold selectPlatform
  rw [if_neg h1, if_neg h2, if_neg h3, if_neg h4, if_neg h5, if_neg h6, if_neg h7, if_neg h8,
    if_neg h9, if_neg h10, if_neg h11, if_neg h12]

theorem selectPlatform_isSome_of_mem :
    ∀ h ∈ dispatchHosts, (selectPlatform h).isSome = true := by
  decide

theorem selectPlatform_isSome_iff (h : String) :
    (selectPlatform h).isSome = true ↔ h ∈ dispatchHosts := by
  constructor
  · intro hs
    by_contra hh
    rw [selectPlatform_of_not_mem hh] at hs
    exact Bool.false_ne_true hs
  · exact selectPlatform_isSome_of_mem h

theorem selectPlatform_of_mem {h : String} (hh : h ∈ dispatchHosts) :
    ∃ p, selectPlatform h = some p :=
  Option.isSome_iff_exists.mp ((selectPlatform_isSome_iff h).mpr hh)

/-- Claim C7: the keys of the localized registry, the keys of the
international registry and the hostnames for which the dispatch switch of
`NewLive` selects an implementation are the same set, and that set has
exactly 12 elements. -/
theorem registry_consistency :
    {h | h ∈ keys LivePlatformCNNameMap} = {h | h ∈ keys LivePlatformENNameMap} ∧
    {h | h ∈ keys LivePlatformENNameMap} = {h | (selectPlatform h).isSome = true} ∧
    {h | (selectPlatform h).isSome = true} = {h | h ∈ keys LivePlatformCNNameMap} ∧
    (keys LivePlatformCNNameMap).toFinset.card = 12 ∧
    (keys LivePlatformCNNameMap).Nodup ∧ (keys LivePlatformENNameMap).Nodup := by
  have hcn : keys LivePlatformCNNameMap = dispatchHosts := by decide
  have hen : keys LivePlatformENNameMap = dispatchHosts := by decide
  refine ⟨by rw [hcn, hen], ?_, ?_, by rw [hcn]; decide, by rw [hcn]; decide,
    by rw [hen]; decide⟩
  · ext h
    simp only [Set.mem_setOf_eq, hen, selectPlatform_isSome_iff]
  · ext h
    simp only [Set.mem_setOf_eq, hcn, selectPlatform_isSome_iff]

/-- Claim C9: each of the 12 supported hostnames has, in both registries, the
localized and the international name of the table of required display names. -/
theorem required_display_names :
    (mapGet LivePlatformCNNameMap "www.panda.tv" = some "熊猫" ∧
      mapGet LivePlatformENNameMap "www.panda.tv" = some "panda") ∧
    (mapGet LivePlatformCNNameMap "live.bilibili.com" = some "哔哩哔哩" ∧
      mapGet LivePlatformENNameMap "live.bilibili.com" = some "bilibili") ∧
    (mapGet LivePlatformCNNameMap "www.zhanqi.tv" = some "战旗" ∧
      mapGet LivePlatformENNameMap "www.zhanqi.tv" = some "zhanqi") ∧
    (mapGet LivePlatformCNNameMap "www.douyu.com" = some "斗鱼" ∧
      mapGet LivePlatformENNameMap "www.douyu.com" = some "douyu") ∧
    (mapGet LivePlatformCNNameMap "star.longzhu.com" = some "龙珠" ∧
      mapGet LivePlatformENNameMap "star.longzhu.com" = some "longzhu") ∧
    (mapGet LivePlatformCNNameMap "www.huomao.com" = some "火猫" ∧
      mapGet LivePlatformENNameMap "www.huomao.com" = some "huomao") ∧
    (mapGet LivePlatformCNNameMap "www.yizhibo.com" = some "一直播" ∧
      mapGet LivePlatformENNameMap "www.yizhibo.com" = some "yizhibo") ∧
    (mapGet LivePlatformCNNameMap "www.twitch.tv" = some "twitch" ∧
      mapGet LivePlatformENNameMap "www.twitch.tv" = some "twitch") ∧
    (mapGet LivePlatformCNNameMap "www.huya.com" = some "虎牙" ∧
      mapGet LivePlatformENNameMap "www.huya.com" = some "huya") ∧
    (mapGet LivePlatformCNNameMap "www.quanmin.tv" = some "全民" ∧
      mapGet LivePlatformENNameMap "www.quanmin.tv" = some "quanmin") ∧
    (mapGet LivePlatformCNNameMap "cc.163.com" = some "CC直播" ∧
      mapGet LivePlatformENNameMap "cc.163.com" = some "163CC") ∧
    (mapGet LivePlatformCNNameMap "www.openrec.tv" = some "openrec" ∧
      mapGet LivePlatformENNameMap "www.openrec.tv" = some "openrec") := by
  decide

/-! ## The verification loop -/

theorem attempts_failedAttempts (k : Nat) (rest : List Event) :
    attempts (failedAttempts k ++ rest) = k + attempts rest := by
  induction k with
  | zero => simp [failedAttempts]
  | succ k ih =>
    simp only [attempts] at ih
    simp [failedAttempts, attempts, List.count_cons, ih]
    omega

theorem sleeps_failedAttempts (k : Nat) (rest : List Event) :
    sleeps (failedAttempts k ++ rest) = List.replicate k Second ++ sleeps rest := by
  induction k with
  | zero => simp [failedAttempts]
  | succ k ih => simp [failedAttempts, sleeps, ih, List.replicate_succ]

/-- The loop entered at counter `i`: after `k` transient failures, with an
iteration left, a nil error from `GetInfo` returns the implementation. -/
theorem verifyLoop_success {ε : Type} (isRNE : ε → Bool) (GetInfo : Nat → Option ε)
    (l : LiveImpl) (k : Nat) :
    ∀ n i, k < n →
      (∀ j, j < k → ∃ e, GetInfo (i + j) = some e ∧ isRNE e = false) →
      GetInfo (i + k) = none →
      verifyLoop isRNE GetInfo l n i
        = (some (some l, none), failedAttempts k ++ [Event.GetInfo]) := by
  induction k with
  | zero =>
    intro n i hn _ hok
    obtain ⟨m, rfl⟩ : ∃ m, n = m + 1 := ⟨n - 1, by omega⟩
    simp only [Nat.add_zero] at hok
    simp [verifyLoop, hok, failedAttempts]
  | succ k ih =>
    intro n i hn htr hok
    obtain ⟨m, rfl⟩ : ∃ m, n = m + 1 := ⟨n - 1, by omega⟩
    obtain ⟨e, he, hne⟩ := htr 0 (by omega)
    simp only [Nat.add_zero] at he
    have hrec := ih m (i + 1) (by omega)
      (fun j hj => by
        have := htr (j + 1) (by omega)
        rwa [show i + (j + 1) = i + 1 + j by omega] at this)
      (by rwa [show i + (k + 1) = i + 1 + k by omega] at hok)
    simp [verifyLoop, he, hne, hrec, failedAttempts]

/-- The loop entered at counter `i`: after `k` transient failures, with an
iteration left, an error classified as room-not-exists is returned as it is. -/
theorem verifyLoop_fatal {ε : Type} (isRNE : ε → Bool) (GetInfo : Nat → Option ε)
    (l : LiveImpl) (err : ε) (k : Nat) :
    ∀ n i, k < n →
      (∀ j, j < k → ∃ e, GetInfo (i + j) = some e ∧ isRNE e = false) →
      GetInfo (i + k) = some err → isRNE err = true →
      verifyLoop isRNE GetInfo l n i
        = (some (none, some (Error.fromGetInfo err)), failedAttempts k ++ [Event.GetInfo]) := by
  induction k with
  | zero =>
    intro n i hn _ hk hf
    obtain ⟨m, rfl⟩ : ∃ m, n = m + 1 := ⟨n - 1, by omega⟩
    simp only [Nat.add_zero] at hk
    simp [verifyLoop, hk, hf, failedAttempts]
  | succ k ih =>
    intro n i hn htr hk hf
    obtain ⟨m, rfl⟩ : ∃ m, n = m + 1 := ⟨n - 1, by omega⟩
    obtain ⟨e, he, hne⟩ := htr 0 (by omega)
    simp only [Nat.add_zero] at he
    have hrec := ih m (i + 1) (by omega)
      (fun j hj => by
        have := htr (j + 1) (by omega)
        rwa [show i + (j + 1) = i + 1 + j by omega] at this)
      (by rwa [show i + (k + 1) = i + 1 + k by omega] at hk) hf
    simp [verifyLoop, he, hne, hrec, failedAttempts]

/-- The loop entered at counter `i` with `n` iterations left, all of which
fail with a transient error: it runs out, and every failure is followed by
the sleep, the last one included. -/
theorem verifyLoop_exhausted {ε : Type} (isRNE : ε → Bool) (GetInfo : Nat → Option ε)
    (l : LiveImpl) (n : Nat) :
    ∀ i, (∀ j, j < n → ∃ e, GetInfo (i + j) = some e ∧ isRNE e = false) →
      verifyLoop isRNE GetInfo l n i = (none, failedAttempts n) := by
  induction n with
  | zero => intro i _; simp [verifyLoop, failedAttempts]
  | succ n ih =>
    intro i htr
    obtain ⟨e, he, hne⟩ := htr 0 (by omega)
    simp only [Nat.add_zero] at he
    have hrec := ih (i + 1) (fun j hj => by
      have := htr (j + 1) (by omega)
      rwa [show i + (j + 1) = i + 1 + j by omega] at this)
    simp [verifyLoop, he, hne, hrec, failedAttempts]

theorem NewLive_of_selected {ε : Type} (md5 : ByteArray → String) (isRNE : ε → Bool)
    (GetInfo : Nat → Option ε) (url : URL) (p : Platform)
    (hp : selectPlatform url.Host = some p) :
    NewLive md5 isRNE GetInfo url =
      match verifyLoop isRNE GetInfo
          { platform := p, abstractLive := baseLive md5 url } 3 0 with
      | (some r, actions) => (r, actions)
      | (none, actions) => ((none, some (Error.errorsNew "can not parse")), actions) := by
  simp [NewLive, hp]

/-! ## The room factory -/

/-- Claim C4: for every URL whose host is not one of the 12 known hostnames,
`NewLive` returns a nil handle and the error `errors.New("can not parse")`,
and performs no `GetInfo` call and no sleep. -/
theorem NewLive_unsupported_host {ε : Type} (md5 : ByteArray → String) (isRNE : ε → Bool)
    (GetInfo : Nat → Option ε) (url : URL) (hh : url.Host ∉ dispatchHosts) :
    NewLive md5 isRNE GetInfo url
      = ((none, some (Error.errorsNew "can not parse")), []) := by
  simp [NewLive, selectPlatform_of_not_mem hh]

/-- Witness of C4 at the host `example.com`. -/
theorem NewLive_unsupported_host_witness :
    NewLive sampleDigest sampleIsRoomNotExistsError timeoutThenSuccess exampleUrl
      = ((none, some (Error.errorsNew "can not parse")), []) :=
  NewLive_unsupported_host sampleDigest sampleIsRoomNotExistsError timeoutThenSuccess
    exampleUrl (by decide)

/-- Claim C5: for every supported hostname and every `k < 3`, if the first `k`
calls of `GetInfo` fail with transient errors and call `k + 1` succeeds,
`NewLive` returns the constructed implementation with a nil error, after
exactly `k + 1` calls of `GetInfo` and exactly `k` sleeps of one second, each
sleep following a failed call. -/
theorem NewLive_first_success_wins {ε : Type} (md5 : ByteArray → String) (isRNE : ε → Bool)
    (GetInfo : Nat → Option ε) (url : URL) (hh : url.Host ∈ dispatchHosts)
    (k : Nat) (hk : k < 3)
    (htransient : ∀ j, j < k → ∃ e, GetInfo j = some e ∧ isRNE e = false)
    (hsuccess : GetInfo k = none) :
    ∃ p, selectPlatform url.Host = some p ∧
      NewLive md5 isRNE GetInfo url
        = ((some { platform := p, abstractLive := baseLive md5 url }, none),
            failedAttempts k ++ [Event.GetInfo]) ∧
      attempts (NewLive md5 isRNE GetInfo url).2 = k + 1 ∧
      sleeps (NewLive md5 isRNE GetInfo url).2 = List.replicate k (1 * 1000000000) := by
  obtain ⟨p, hp⟩ := selectPlatform_of_mem hh
  have hloop := verifyLoop_success isRNE GetInfo
    { platform := p, abstractLive := baseLive md5 url } k 3 0 hk
    (fun j hj => by simpa using htransient j hj) (by simpa using hsuccess)
  have hres : NewLive md5 isRNE GetInfo url
      = ((some { platform := p, abstractLive := baseLive md5 url }, none),
          failedAttempts k ++ [Event.GetInfo]) := by
    rw [NewLive_of_selected md5 isRNE GetInfo url p hp, hloop]
  refine ⟨p, hp, hres, ?_, ?_⟩
  · rw [hres]
    show attempts (failedAttempts k ++ [Event.GetInfo]) = k + 1
    rw [attempts_failedAttempts]
    rfl
  · rw [hres]
    show sleeps (failedAttempts k ++ [Event.GetInfo]) = List.replicate k (1 * 1000000000)
    rw [sleeps_failedAttempts]
    simp [sleeps, Second]

/-- Witness of C5: a timeout on the first call and a success on the second
give the handle after two calls and one sleep. -/
theorem NewLive_first_success_wins_witness :
    NewLive sampleDigest sampleIsRoomNotExistsError timeoutThenSuccess pandaUrl
      = ((some { platform := Platform.PandaLive,
                 abstractLive := baseLive sampleDigest pandaUrl }, none),
          [Event.GetInfo, Event.Sleep 1000000000, Event.GetInfo]) := by
  obtain ⟨p, hp, hres, _, _⟩ :=
    NewLive_first_success_wins sampleDigest sampleIsRoomNotExistsError timeoutThenSuccess
      pandaUrl (by decide) 1 (by decide)
      (fun j hj => by
        obtain rfl : j = 0 := by omega
        exact ⟨"timeout", rfl, by decide⟩)
      rfl
  have hp2 : selectPlatform pandaUrl.Host = some Platform.PandaLive := by decide
  rw [hp2] at hp
  cases hp
  exact hres

/-- Claim C3: for every supported hostname and every sequence of `GetInfo`
outcomes, if call `k + 1` (with `k < 3`) is the first to fail with an error
classified as room-not-exists and the `k` calls before it failed with
transient errors, `NewLive` returns a nil handle and exactly that error, after
exactly `k + 1` calls of `GetInfo` and `k` sleeps, none of them after the last
call; in particular, when `GetInfo` always fails with a room-not-exists error,
`NewLive` returns the first such error after one call and no sleep. -/
theorem NewLive_fatal_short_circuits {ε : Type} (md5 : ByteArray → String)
    (isRNE : ε → Bool) (GetInfo : Nat → Option ε) (url : URL)
    (hh : url.Host ∈ dispatchHosts) :
    (∀ k err, k < 3 →
      (∀ j, j < k → ∃ e, GetInfo j = some e ∧ isRNE e = false) →
      GetInfo k = some err → isRNE err = true →
      NewLive md5 isRNE GetInfo url
          = ((none, some (Error.fromGetInfo err)), failedAttempts k ++ [Event.GetInfo]) ∧
        attempts (NewLive md5 isRNE GetInfo url).2 = k + 1 ∧
        sleeps (NewLive md5 isRNE GetInfo url).2 = List.replicate k (1 * 1000000000) ∧
        (NewLive md5 isRNE GetInfo url).2.getLast? = some Event.GetInfo) ∧
    (∀ err, (∀ i, ∃ e, GetInfo i = some e ∧ isRNE e = true) → GetInfo 0 = some err →
      NewLive md5 isRNE GetInfo url
        = ((none, some (Error.fromGetInfo err)), [Event.GetInfo])) := by
  obtain ⟨p, hp⟩ := selectPlatform_of_mem hh
  have main : ∀ k err, k < 3 →
      (∀ j, j < k → ∃ e, GetInfo j = some e ∧ isRNE e = false) →
      GetInfo k = some err → isRNE err = true →
      NewLive md5 isRNE GetInfo url
          = ((none, some (Error.fromGetInfo err)), failedAttempts k ++ [Event.GetInfo]) := by
    intro k err hk htr hek hf
    have hloop := verifyLoop_fatal isRNE GetInfo
      { platform := p, abstractLive := baseLive md5 url } err k 3 0 hk
      (fun j hj => by simpa using htr j hj) (by simpa using hek) hf
    rw [NewLive_of_selected md5 isRNE GetInfo url p hp, hloop]
  refine ⟨?_, ?_⟩
  · intro k err hk htr hek hf
    have hres := main k err hk htr hek hf
    refine ⟨hres, ?_, ?_, ?_⟩
    · rw [hres]
      show attempts (failedAttempts k ++ [Event.GetInfo]) = k + 1
      rw [attempts_failedAttempts]
      rfl
    · rw [hres]
      show sleeps (failedAttempts k ++ [Event.GetInfo]) = List.replicate k (1 * 1000000000)
      rw [sleeps_failedAttempts]
      simp [sleeps, Second]
    · rw [hres]
      simp
  · intro err hall h0
    obtain ⟨e, he, hf⟩ := hall 0
    have hee : e = err := by
      rw [h0] at he
      exact (Option.some.inj he).symm
    subst hee
    simpa [failedAttempts] using main 0 e (by decide) (fun j hj => absurd hj (by omega)) h0 hf

/-- Witness of C3: a timeout on the first call and a room-not-exists error on
the second. -/
theorem NewLive_fatal_short_circuits_witness :
    NewLive sampleDigest sampleIsRoomNotExistsError timeoutThenMissing pandaUrl
        = ((none, some (Error.fromGetInfo "room not exists")),
            failedAttempts 1 ++ [Event.GetInfo]) ∧
      attempts (NewLive sampleDigest sampleIsRoomNotExistsError timeoutThenMissing pandaUrl).2
        = 1 + 1 ∧
      sleeps (NewLive sampleDigest sampleIsRoomNotExistsError timeoutThenMissing pandaUrl).2
        = List.replicate 1 (1 * 1000000000) ∧
      (NewLive sampleDigest sampleIsRoomNotExistsError timeoutThenMissing pandaUrl).2.getLast?
        = some Event.GetInfo :=
  (NewLive_fatal_short_circuits sampleDigest sampleIsRoomNotExistsError timeoutThenMissing
    pandaUrl (by decide)).1 1 "room not exists" (by decide)
    (fun j hj => by
      obtain rfl : j = 0 := by omega
      exact ⟨"timeout", rfl, by decide⟩)
    rfl (by decide)

/-- The retry loop on exhaustion: for every supported hostname and every
implementation whose first three `GetInfo` calls fail with transient errors,
`NewLive` returns a nil handle and `errors.New("can not parse")` after three
calls, each of them followed by a one-second sleep. -/
theorem NewLive_exhaustion_actions {ε : Type} (md5 : ByteArray → String)
    (isRNE : ε → Bool) (GetInfo : Nat → Option ε) (url : URL)
    (hh : url.Host ∈ dispatchHosts)
    (htransient : ∀ j, j < 3 → ∃ e, GetInfo j = some e ∧ isRNE e = false) :
    NewLive md5 isRNE GetInfo url
      = ((none, some (Error.errorsNew "can not parse")), failedAttempts 3) := by
  obtain ⟨p, hp⟩ := selectPlatform_of_mem hh
  have hloop := verifyLoop_exhausted isRNE GetInfo
    { platform := p, abstractLive := baseLive md5 url } 3 0
    (fun j hj => by simpa using htransient j hj)
  rw [NewLive_of_selected md5 isRNE GetInfo url p hp, hloop]

/-- Claim C1, evaluated on the room `https://www.panda.tv/10300` with an
implementation whose `GetInfo` always times out: `NewLive` makes 3 calls of
`GetInfo` and returns a nil handle with `errors.New("can not parse")`, but it
sleeps three times, 3 seconds in total, the third sleep after the last call. -/
theorem NewLive_retry_exhaustion_sleeps_thrice :
    NewLive sampleDigest sampleIsRoomNotExistsError alwaysTimeout pandaUrl
        = ((none, some (Error.errorsNew "can not parse")),
            [Event.GetInfo, Event.Sleep 1000000000, Event.GetInfo, Event.Sleep 1000000000,
              Event.GetInfo, Event.Sleep 1000000000]) ∧
      attempts (NewLive sampleDigest sampleIsRoomNotExistsError alwaysTimeout pandaUrl).2 = 3 ∧
      sleeps (NewLive sampleDigest sampleIsRoomNotExistsError alwaysTimeout pandaUrl).2
        = [1000000000, 1000000000, 1000000000] ∧
      (sleeps (NewLive sampleDigest sampleIsRoomNotExistsError alwaysTimeout pandaUrl).2).sum
        = 3 * Second := by
  have hres := NewLive_exhaustion_actions sampleDigest sampleIsRoomNotExistsError alwaysTimeout
    pandaUrl (by decide) (fun j _ => ⟨"timeout", rfl, by decide⟩)
  rw [hres]
  decide

/-! ## The identifier -/

/-- A handle returned from inside the loop is the implementation the loop
was entered with. -/
theorem verifyLoop_handle {ε : Type} (isRNE : ε → Bool) (GetInfo : Nat → Option ε)
    (l l0 : LiveImpl) (err : Option (Error ε)) (n : Nat) :
    ∀ i, (verifyLoop isRNE GetInfo l n i).1 = some (some l0, err) → l0 = l := by
  induction n with
  | zero => intro i h; simp [verifyLoop] at h
  | succ n ih =>
    intro i h
    unfold verifyLoop at h
    cases hg : GetInfo i with
    | none =>
      simp only [hg] at h
      simp only [Option.some.injEq, Prod.mk.injEq] at h
      exact h.1.symm
    | some e =>
      simp only [hg] at h
      by_cases hf : isRNE e = true
      · simp [hf] at h
      · simp only [hf] at h
        exact ih (i + 1) h

/-- A handle returned by `NewLive` embeds the base record built from the URL. -/
theorem NewLive_handle {ε : Type} (md5 : ByteArray → String) (isRNE : ε → Bool)
    (GetInfo : Nat → Option ε) (url : URL) (l : LiveImpl)
    (h : (NewLive md5 isRNE GetInfo url).1.1 = some l) :
    l.abstractLive = baseLive md5 url := by
  cases hs : selectPlatform url.Host with
  | none => simp [NewLive, hs] at h
  | some p =>
    rw [NewLive_of_selected md5 isRNE GetInfo url p hs] at h
    cases hv : verifyLoop isRNE GetInfo
        { platform := p, abstractLive := baseLive md5 url } 3 0 with
    | mk r actions =>
      cases r with
      | none => simp [hv] at h
      | some r =>
        obtain ⟨lv, e⟩ := r
        simp only [hv] at h
        have hl : lv = some l := h
        subst hl
        have := verifyLoop_handle isRNE GetInfo
          { platform := p, abstractLive := baseLive md5 url } l e 3 0 (by rw [hv])
        rw [this]

/-- Claim C8: the identifier `NewLive` computes is the digest of the host
concatenated directly with the path, and two URLs with the same host and the
same path get the same identifier whatever their scheme, query and fragment,
in the base record and in every handle `NewLive` returns. -/
theorem liveId_determinism {ε : Type} (md5 : ByteArray → String) (isRNE : ε → Bool)
    (GetInfo1 GetInfo2 : Nat → Option ε) (u1 u2 : URL)
    (hHost : u1.Host = u2.Host) (hPath : u1.Path = u2.Path) :
    (baseLive md5 u1).liveId = md5 (u1.Host ++ u1.Path).toUTF8 ∧
    (baseLive md5 u1).liveId = (baseLive md5 u2).liveId ∧
    (∀ l1 l2, (NewLive md5 isRNE GetInfo1 u1).1.1 = some l1 →
      (NewLive md5 isRNE GetInfo2 u2).1.1 = some l2 →
      l1.abstractLive.liveId = md5 (u1.Host ++ u1.Path).toUTF8 ∧
      l1.abstractLive.liveId = l2.abstractLive.liveId) := by
  have heq : (baseLive md5 u1).liveId = (baseLive md5 u2).liveId := by
    simp [baseLive, hHost, hPath]
  refine ⟨rfl, heq, ?_⟩
  intro l1 l2 h1 h2
  rw [NewLive_handle md5 isRNE GetInfo1 u1 l1 h1, NewLive_handle md5 isRNE GetInfo2 u2 l2 h2]
  exact ⟨rfl, heq⟩

/-- Witness of C8: two URLs of one room that differ in scheme, query and
fragment. -/
theorem liveId_determinism_witness :
    (baseLive sampleDigest pandaUrl).liveId
        = sampleDigest (pandaUrl.Host ++ pandaUrl.Path).toUTF8 ∧
    (baseLive sampleDigest pandaUrl).liveId
        = (baseLive sampleDigest pandaUrlWithQuery).liveId :=
  have h := liveId_determinism sampleDigest sampleIsRoomNotExistsError timeoutThenSuccess
    timeoutThenSuccess pandaUrl pandaUrlWithQuery rfl rfl
  ⟨h.1, h.2.1⟩

theorem dispatchHosts_prefix_free :
    ∀ h1 ∈ dispatchHosts, ∀ h2 ∈ dispatchHosts, h1.data <+: h2.data → h1 = h2 := by
  decide

/-- Claim C10: on the 12 dispatched hostnames the hashed string determines
the host and the path (no dispatched hostname is a proper prefix of another),
so two supported rooms with one identifier have the same host and path or
give a collision of the digest on two distinct hashed strings; without the
restriction on hosts, two distinct (host, path) pairs have the same hashed
string and hence, for every digest, the same identifier. -/
theorem liveId_preimage_unambiguous :
    (∀ h1 ∈ dispatchHosts, ∀ h2 ∈ dispatchHosts, ∀ p1 p2 : String,
      Sprintf h1 p1 = Sprintf h2 p2 → h1 = h2 ∧ p1 = p2) ∧
    (∀ h1 ∈ dispatchHosts, ∀ h2 ∈ dispatchHosts, h1.data <+: h2.data → h1 = h2) ∧
    (∀ (md5 : ByteArray → String) (u1 u2 : URL),
      u1.Host ∈ dispatchHosts → u2.Host ∈ dispatchHosts →
      (baseLive md5 u1).liveId = (baseLive md5 u2).liveId →
      (u1.Host = u2.Host ∧ u1.Path = u2.Path) ∨
      (Sprintf u1.Host u1.Path ≠ Sprintf u2.Host u2.Path ∧
        md5 (Sprintf u1.Host u1.Path).toUTF8 = md5 (Sprintf u2.Host u2.Path).toUTF8)) ∧
    (∃ u1 u2 : URL, (u1.Host, u1.Path) ≠ (u2.Host, u2.Path) ∧
      Sprintf u1.Host u1.Path = Sprintf u2.Host u2.Path ∧
      ∀ md5 : ByteArray → String, (baseLive md5 u1).liveId = (baseLive md5 u2).liveId) := by
  have inj : ∀ h1 ∈ dispatchHosts, ∀ h2 ∈ dispatchHosts, ∀ p1 p2 : String,
      Sprintf h1 p1 = Sprintf h2 p2 → h1 = h2 ∧ p1 = p2 := by
    intro h1 hm1 h2 hm2 p1 p2 heq
    have hdata : h1.data ++ p1.data = h2.data ++ p2.data := by
      have := congrArg String.data heq
      simpa [Sprintf] using this
    have hh : h1 = h2 := by
      rcases List.append_eq_append_iff.mp hdata with ⟨a, ha, _⟩ | ⟨c, hc, _⟩
      · exact dispatchHosts_prefix_free h1 hm1 h2 hm2 ⟨a, ha.symm⟩
      · exact (dispatchHosts_prefix_free h2 hm2 h1 hm1 ⟨c, hc.symm⟩).symm
    subst hh
    refine ⟨rfl, ?_⟩
    have := List.append_cancel_left hdata
    exact String.ext this
  refine ⟨inj, dispatchHosts_prefix_free, ?_, ?_⟩
  · intro md5 u1 u2 hm1 hm2 hid
    by_cases hs : Sprintf u1.Host u1.Path = Sprintf u2.Host u2.Path
    · exact Or.inl (inj _ hm1 _ hm2 _ _ hs)
    · exact Or.inr ⟨hs, hid⟩
  · refine ⟨{ Scheme := "", Host := "", Path := "a/b", RawQuery := "", Fragment := "" },
      { Scheme := "", Host := "a", Path := "/b", RawQuery := "", Fragment := "" },
      by decide, by decide, ?_⟩
    intro md5
    have hs : Sprintf "" "a/b" = Sprintf "a" "/b" := by decide
    simp only [baseLive, hs]

/-- Witness of C10: one host with one path on both sides, and the hosts
`www.huya.com` and `www.huomao.com`, whose hashed strings differ. -/
theorem liveId_preimage_unambiguous_witness :
    ("www.huya.com" = "www.huya.com" ∧ "/1" = "/1") ∧
    Sprintf "www.huya.com" "/1" ≠ Sprintf "www.huomao.com" "/1" :=
  ⟨liveId_preimage_unambiguous.1 "www.huya.com" (by decide) "www.huya.com" (by decide)
      "/1" "/1" rfl,
    fun heq => absurd
      (liveId_preimage_unambiguous.1 "www.huya.com" (by decide) "www.huomao.com" (by decide)
        "/1" "/1" heq).1 (by decide)⟩

/-! ## Serialization -/

theorem Format_ne_empty (t : Time) : (t.Format == "") = false := by
  rw [beq_eq_false_iff_ne]
  intro h
  have hd := congrArg String.data h
  simp [Time.Format] at hd

/-- Claim C6: for every `Info` whose `Live` has a zero last-start time, the
serialized record has exactly the keys `id`, `live_url`, `platform_cn_name`,
`platform_en_name`, `room_nickname`, `host_name`, `room_name`, `status`,
`listening`, `recoding`, and neither `last_start_time` nor
`last_start_time_unix`. -/
theorem MarshalJSON_unset_time (i : Info) (hzero : i.Live.GetLastStartTime.IsZero = true) :
    objectKeys i.MarshalJSON
      = ["id", "live_url", "platform_cn_name", "platform_en_name", "room_nickname",
          "host_name", "room_name", "status", "listening", "recoding"] ∧
    "last_start_time" ∉ objectKeys i.MarshalJSON ∧
    "last_start_time_unix" ∉ objectKeys i.MarshalJSON := by
  have hk : objectKeys i.MarshalJSON
      = ["id", "live_url", "platform_cn_name", "platform_en_name", "room_nickname",
          "host_name", "room_name", "status", "listening", "recoding"] := by
    simp [Info.MarshalJSON, hzero, jsonMarshal, field, isEmptyValue, objectKeys]
  rw [hk]
  exact ⟨rfl, by decide, by decide⟩

/-- Witness of C6: the snapshot of a room whose last-start time is the zero
time. -/
theorem MarshalJSON_unset_time_witness :
    objectKeys (sampleInfo zeroTime).MarshalJSON
      = ["id", "live_url", "platform_cn_name", "platform_en_name", "room_nickname",
          "host_name", "room_name", "status", "listening", "recoding"] ∧
    "last_start_time" ∉ objectKeys (sampleInfo zeroTime).MarshalJSON ∧
    "last_start_time_unix" ∉ objectKeys (sampleInfo zeroTime).MarshalJSON :=
  MarshalJSON_unset_time (sampleInfo zeroTime) (by decide)

/-- The serialization of an `Info` whose `Live` has a non-zero last-start
time `T`: the record has the key `last_start_time` with `T` formatted as
`2006-01-02 15:04:05`; the `omitempty` tag of the integer field keeps the key
`last_start_time_unix`, with the value `T.Unix()`, when `T.Unix()` is not 0
and drops it when `T.Unix()` is 0. -/
theorem MarshalJSON_set_time (i : Info) (hset : i.Live.GetLastStartTime.IsZero = false) :
    i.MarshalJSON.lookup "last_start_time"
      = some (JSONValue.str i.Live.GetLastStartTime.Format) ∧
    i.MarshalJSON.lookup "last_start_time_unix"
      = (if i.Live.GetLastStartTime.Unix = 0 then none
         else some (JSONValue.int i.Live.GetLastStartTime.Unix)) ∧
    objectKeys i.MarshalJSON
      = ["id", "live_url", "platform_cn_name", "platform_en_name", "room_nickname",
          "host_name", "room_name", "status", "listening", "recoding", "last_start_time"]
        ++ (if i.Live.GetLastStartTime.Unix = 0 then [] else ["last_start_time_unix"]) := by
  have hf := Format_ne_empty i.Live.GetLastStartTime
  by_cases hu : i.Live.GetLastStartTime.Unix = 0
  · simp [Info.MarshalJSON, hset, jsonMarshal, field, isEmptyValue, objectKeys, hf, hu,
      List.lookup]
  · simp [Info.MarshalJSON, hset, jsonMarshal, field, isEmptyValue, objectKeys, hf, hu,
      List.lookup]

set_option maxRecDepth 100000 in
/-- The serialization at a last-start time of 2019-03-01 07:59:59 at UTC+8:
both keys are present. -/
theorem MarshalJSON_set_time_march2019 :
    (sampleInfo march2019).MarshalJSON.lookup "last_start_time"
      = some (JSONValue.str "2019-03-01 07:59:59") ∧
    (sampleInfo march2019).MarshalJSON.lookup "last_start_time_unix"
      = some (JSONValue.int 1551398399) := by
  have h := MarshalJSON_set_time (sampleInfo march2019) (by decide)
  have hf : (sampleInfo march2019).Live.GetLastStartTime.Format = "2019-03-01 07:59:59" := by
    decide
  have hu : (sampleInfo march2019).Live.GetLastStartTime.Unix = 1551398399 := by decide
  rw [hf, hu] at h
  exact ⟨h.1, h.2.1⟩

set_option maxRecDepth 100000 in
/-- Claim C2, evaluated on a snapshot whose last-start time is 1970-01-01
00:00:00 UTC: that time is not the zero time and its Unix value is 0; both
fields are assigned under the one `!IsZero()` guard and `last_start_time` is
serialized, but the record has no key `last_start_time_unix`. -/
theorem MarshalJSON_epoch_omits_unix :
    (sampleInfo unixEpoch).Live.GetLastStartTime.IsZero = false ∧
    (sampleInfo unixEpoch).Live.GetLastStartTime.Unix = 0 ∧
    (sampleInfo unixEpoch).MarshalJSON.lookup "last_start_time"
      = some (JSONValue.str "1970-01-01 00:00:00") ∧
    (sampleInfo unixEpoch).MarshalJSON.lookup "last_start_time_unix" = none ∧
    objectKeys (sampleInfo unixEpoch).MarshalJSON
      = ["id", "live_url", "platform_cn_name", "platform_en_name", "room_nickname",
          "host_name", "room_name", "status", "listening", "recoding", "last_start_time"] := by
  decide

end Api
